import Mathlib

/-!
Verification development for the hexagonal chunk layout generation engine of
EricEisaman/sigma-wasm-teacher-example.

The repository ships two configuration modules that are embedded here
directly from source:
* the constraints configuration module (Voronoi seed counts, road and
  border-road configuration, building density ratios, minimum adjacent
  roads, maximum rings), and
* the tiles configuration module (tile type table TILES, color / WASM
  number / display name lookups).

The chunk layout generation engine itself (hex grid index, Voronoi region
assigner, road network synthesizer, border compatibility resolver, building
placer, layout assembler) is not part of the shipped sources; every
definition of it below is modelled from the specification and is marked
accordingly in its doc comment.
-/

/-! ## Tile configuration, embedded from src/routes/babylon-chunks/tiles.ts -/

/-- The closed tile type variant: TileType is a union of exactly these five
tags (grass, building, road, forest, water). -/
inductive TileTag
  | grass
  | building
  | road
  | forest
  | water
deriving DecidableEq, Repr

/-- An RGB color with components in 0..1, kept exact as rationals. -/
structure TileColor where
  r : ℚ
  g : ℚ
  b : ℚ
deriving DecidableEq, Repr

/-- Configuration record for a single tile type, from tiles.ts. -/
structure TileConfig where
  type : String
  modelUrl : Option String
  color : TileColor
  wasmNumber : Int
  displayName : Option String
deriving DecidableEq, Repr

/-- Default model URL for hex tiles, from tiles.ts. -/
def DEFAULT_TILE_MODEL_URL : String :=
  "https://raw.githubusercontent.com/EricEisaman/assets/main/items/hex_tile.glb"

/-- The TILES record of tiles.ts, keyed by the closed tile tag. -/
def TILES : TileTag → TileConfig
  | .grass => ⟨"grass", none, ⟨0.2, 0.8, 0.2⟩, 0, some "Grass"⟩
  | .building => ⟨"building", none, ⟨0.96, 0.96, 0.96⟩, 1, some "Building"⟩
  | .road => ⟨"road", none, ⟨0.326, 0.336, 0.326⟩, 2, some "Road"⟩
  | .forest => ⟨"forest", none, ⟨0.05, 0.3, 0.05⟩, 3, some "Forest"⟩
  | .water => ⟨"water", none, ⟨0, 0.149, 1.0⟩, 4, some "Water"⟩

/-- Key lookup into the TILES record for an arbitrary runtime string, as a
JavaScript property access TILES[tileType] may receive any string. -/
def tileTagOfString (s : String) : Option TileTag :=
  if s = "grass" then some .grass
  else if s = "building" then some .building
  else if s = "road" then some .road
  else if s = "forest" then some .forest
  else if s = "water" then some .water
  else none

/-- TILES[s] for a runtime string key: some config when s is a key of the
record, none otherwise. -/
def lookupTILES (s : String) : Option TileConfig :=
  (tileTagOfString s).map TILES

/-- The string keys of the TILES record, in declaration order. -/
def tilesKeys : List String :=
  ["grass", "building", "road", "forest", "water"]

/-- getTileModelUrl from tiles.ts: the tile-specific URL if provided,
otherwise the default URL. -/
def getTileModelUrl (s : String) : String :=
  ((lookupTILES s).bind (fun c => c.modelUrl)).getD DEFAULT_TILE_MODEL_URL

/-- getTileColor from tiles.ts: the configured color, or white (1,1,1) when
the tile type is not found in TILES. -/
def getTileColor (s : String) : TileColor :=
  match lookupTILES s with
  | some c => c.color
  | none => ⟨1, 1, 1⟩

/-- getTileWasmNumber from tiles.ts: the configured WASM number, or -1 when
the tile type is not found in TILES. -/
def getTileWasmNumber (s : String) : Int :=
  match lookupTILES s with
  | some c => c.wasmNumber
  | none => -1

/-- getAllTileTypes from tiles.ts: Object.keys(TILES) in declaration order. -/
def getAllTileTypes : List TileTag :=
  [.grass, .building, .road, .forest, .water]

/-! ## Constraints configuration, embedded from the constraints module -/

/-- Voronoi seed configuration, from the constraints module. -/
structure VoronoiSeeds where
  forest : Nat
  water : Nat
  grass : Nat
deriving DecidableEq, Repr

/-- Building density ratios, from the constraints module. -/
structure BuildingDensityRatios where
  sparse : ℚ
  medium : ℚ
  dense : ℚ
deriving DecidableEq, Repr

/-- Road generation configuration, from the constraints module. -/
structure RoadConfig where
  defaultDensity : ℚ
  seedPointRatio : ℚ
deriving DecidableEq, Repr

/-- Border road configuration, from the constraints module. -/
structure BorderRoadConfig where
  roadsPerBorder : Nat
  connectToNeighbors : Bool
deriving DecidableEq, Repr

/-- Building density level. -/
inductive DensityLevel
  | sparse
  | medium
  | dense
deriving DecidableEq, Repr

/-- Building size hint. -/
inductive SizeHint
  | small
  | medium
  | large
deriving DecidableEq, Repr

/-- Building clustering mode. -/
inductive ClusteringMode
  | clustered
  | distributed
  | random
deriving DecidableEq, Repr

/-- Shape of the CONSTRAINTS configuration object. -/
structure Constraints where
  voronoiSeeds : VoronoiSeeds
  roadDensity : ℚ
  road : RoadConfig
  borderRoad : BorderRoadConfig
  buildingDensity : BuildingDensityRatios
  defaultBuildingDensity : DensityLevel
  defaultBuildingSizeHint : SizeHint
  defaultClustering : ClusteringMode
  defaultGrassRatio : ℚ
  minAdjacentRoads : Nat
  maxRings : Nat
deriving DecidableEq, Repr

/-- The CONSTRAINTS configuration object, embedded value for value from the
constraints module. -/
def CONSTRAINTS : Constraints where
  voronoiSeeds := ⟨4, 3, 6⟩
  roadDensity := 0.1
  road := ⟨0.1, 0.25⟩
  borderRoad := ⟨1, true⟩
  buildingDensity := ⟨0.05, 0.1, 0.15⟩
  defaultBuildingDensity := .medium
  defaultBuildingSizeHint := .medium
  defaultClustering := .random
  defaultGrassRatio := 0.3
  minAdjacentRoads := 1
  maxRings := 50

/-! ## Hex grid geometry (modelled from the spec, section 4.1) -/

/-- An axial hex coordinate (q, r). -/
structure Hex where
  q : Int
  r : Int
deriving DecidableEq, Repr

/-- Hex norm of an axial coordinate: its hex-grid distance from the center,
max of the absolute values of the three cube coordinates q, r, s = -q-r. -/
def hexNorm (h : Hex) : Nat :=
  max h.q.natAbs (max h.r.natAbs (h.q + h.r).natAbs)

/-- Axial hex-grid distance between two cells. -/
def hexDist (a b : Hex) : Nat := hexNorm ⟨b.q - a.q, b.r - a.r⟩

/-- The six axial unit directions around a hex cell. -/
def hexDirections : List Hex :=
  [⟨1, 0⟩, ⟨1, -1⟩, ⟨0, -1⟩, ⟨-1, 0⟩, ⟨-1, 1⟩, ⟨0, 1⟩]

/-- The (up to six) neighbor coordinates of a cell. -/
def hexNeighbors (c : Hex) : List Hex :=
  hexDirections.map (fun d => ⟨c.q + d.q, c.r + d.r⟩)

/-- Integers from -R to R in increasing order. -/
def intRangeSym (R : Nat) : List Int :=
  (List.range (2 * R + 1)).map (fun i : Nat => (i : Int) - (R : Int))

/-- Modelled from the spec: the Hex Grid Index cell enumeration — all cells
within R rings of the center in a stable, deterministic order. -/
def hexGrid (R : Nat) : List Hex :=
  (intRangeSym R).flatMap (fun q =>
    (intRangeSym R).filterMap (fun r =>
      if hexNorm ⟨q, r⟩ ≤ R then some (⟨q, r⟩ : Hex) else none))

/-- One greedy step from a toward b: a unit hex move that increases one
cube coordinate lying below its target and decreases one lying above it. -/
def hexStep (a b : Hex) : Hex :=
  if a.q < b.q ∧ b.r < a.r then ⟨a.q + 1, a.r - 1⟩
  else if a.q < b.q ∧ a.q + a.r < b.q + b.r then ⟨a.q + 1, a.r⟩
  else if a.r < b.r ∧ b.q < a.q then ⟨a.q - 1, a.r + 1⟩
  else if a.r < b.r ∧ a.q + a.r < b.q + b.r then ⟨a.q, a.r + 1⟩
  else if b.q + b.r < a.q + a.r ∧ b.q < a.q then ⟨a.q - 1, a.r⟩
  else ⟨a.q, a.r - 1⟩

/-- Cell c lies coordinatewise (in cube coordinates) between cells a and b. -/
def HexBetween (a b c : Hex) : Prop :=
  (a.q ≤ c.q ∧ c.q ≤ b.q ∨ b.q ≤ c.q ∧ c.q ≤ a.q) ∧
  (a.r ≤ c.r ∧ c.r ≤ b.r ∨ b.r ≤ c.r ∧ c.r ≤ a.r) ∧
  (a.q + a.r ≤ c.q + c.r ∧ c.q + c.r ≤ b.q + b.r ∨
    b.q + b.r ≤ c.q + c.r ∧ c.q + c.r ≤ a.q + a.r)

/-- Fuel-bounded shortest-path construction from a to b by greedy steps. -/
def hexPathGo : Nat → Hex → Hex → List Hex
  | 0, a, _ => [a]
  | n + 1, a, b => if a = b then [a] else a :: hexPathGo n (hexStep a b) b

/-- Modelled from the spec: a shortest hex path between two cells, used by
the road network synthesizer to connect road seeds and border targets. -/
def hexPath (a b : Hex) : List Hex := hexPathGo (hexDist a b) a b

/-! ## Deterministic random source (modelled from the spec, section 4.2) -/

/-- Modelled from the spec: the deterministic seeded random source is a pure
linear congruential step over an explicit state. -/
def lcgNext (s : Nat) : Nat := (1103515245 * s + 12345) % 2147483648

/-- Derives the random stream state for generation stage i from seed S. -/
def stageRng (S : Nat) (i : Nat) : Nat := lcgNext (S + 1000003 * i)

/-- A chooser inspects the random state, the already chosen cells and the
remaining cells, and returns a picked index together with the next state. -/
def ChooserFun : Type := Nat → List Hex → List Hex → Nat × Nat

/-- Generic selection-without-replacement loop: repeatedly let the chooser
pick one remaining cell, remove it, and recurse, until the requested count
is reached or no cells remain. -/
def selectLoop (ch : ChooserFun) : Nat → Nat → List Hex → List Hex → List Hex
  | _, 0, _, _ => []
  | rng, k + 1, chosen, rem =>
    if rem.isEmpty then []
    else
      let pick := ch rng chosen rem
      let i := pick.1 % rem.length
      let x := rem.getD i ⟨0, 0⟩
      x :: selectLoop ch pick.2 (k) (x :: chosen) (rem.eraseIdx i)

/-- Uniform random chooser (sampling without replacement). -/
def chooserRandom : ChooserFun :=
  fun rng _ rem => (rng % max rem.length 1, lcgNext rng)

/-- Smallest hex distance from c to any cell of the list (a large constant
when the list is empty). -/
def minDistTo (chosen : List Hex) (c : Hex) : Nat :=
  chosen.foldl (fun m x => min m (hexDist x c)) 1000000

/-- Index of a cell of l maximizing the key f (first such index). -/
def argmaxIdx (f : Hex → Nat) (l : List Hex) : Nat :=
  (List.range l.length).foldl
    (fun best i =>
      if f (l.getD best ⟨0, 0⟩) < f (l.getD i ⟨0, 0⟩) then i else best) 0

/-- Index of a cell of l minimizing the key f (first such index). -/
def argminIdx (f : Hex → Nat) (l : List Hex) : Nat :=
  (List.range l.length).foldl
    (fun best i =>
      if f (l.getD i ⟨0, 0⟩) < f (l.getD best ⟨0, 0⟩) then i else best) 0

/-- Modelled from the spec: distributed clustering greedily picks cells
maximizing the minimum distance to already-picked buildings. -/
def chooserDistributed : ChooserFun :=
  fun rng chosen rem => (argmaxIdx (minDistTo chosen) rem, rng)

/-- Modelled from the spec: clustered mode picks a random anchor and then
preferentially selects eligible cells nearest the current anchor. -/
def chooserClustered : ChooserFun :=
  fun rng chosen rem =>
    match chosen with
    | [] => (rng % max rem.length 1, lcgNext rng)
    | a :: _ => (argminIdx (hexDist a) rem, rng)

/-- The chooser used by a clustering mode. -/
def chooserOfMode : ClusteringMode → ChooserFun
  | .random => chooserRandom
  | .distributed => chooserDistributed
  | .clustered => chooserClustered

/-! ## Generation configuration and error taxonomy -/

/-- GenerationConfig (spec section 3): the immutable input bundle of one
generation call. -/
structure GenerationConfig where
  voronoiSeeds : VoronoiSeeds
  roadDensity : ℚ
  roadSeedPointRatio : ℚ
  roadsPerBorder : Nat
  connectToNeighbors : Bool
  buildingDensityLevel : DensityLevel
  buildingDensityRatios : BuildingDensityRatios
  buildingSizeHint : SizeHint
  clustering : ClusteringMode
  grassRatio : ℚ
  minAdjacentRoads : Nat
deriving DecidableEq, Repr

/-- The default generation configuration, taken from CONSTRAINTS. -/
def defaultGenerationConfig : GenerationConfig where
  voronoiSeeds := CONSTRAINTS.voronoiSeeds
  roadDensity := CONSTRAINTS.road.defaultDensity
  roadSeedPointRatio := CONSTRAINTS.road.seedPointRatio
  roadsPerBorder := CONSTRAINTS.borderRoad.roadsPerBorder
  connectToNeighbors := CONSTRAINTS.borderRoad.connectToNeighbors
  buildingDensityLevel := CONSTRAINTS.defaultBuildingDensity
  buildingDensityRatios := CONSTRAINTS.buildingDensity
  buildingSizeHint := CONSTRAINTS.defaultBuildingSizeHint
  clustering := CONSTRAINTS.defaultClustering
  grassRatio := CONSTRAINTS.defaultGrassRatio
  minAdjacentRoads := CONSTRAINTS.minAdjacentRoads

/-- The typed failure taxonomy of the engine (spec section 7). -/
inductive GenError
  | InvalidRadius
  | InsufficientGridSize
  | UnreachableBorder
  | BorderConflict
deriving DecidableEq, Repr

/-- The building density ratio selected by the configured level. -/
def densityRatioOf (cfg : GenerationConfig) : ℚ :=
  match cfg.buildingDensityLevel with
  | .sparse => cfg.buildingDensityRatios.sparse
  | .medium => cfg.buildingDensityRatios.medium
  | .dense => cfg.buildingDensityRatios.dense

/-- Computable floor of q * n for a rational ratio q and a cell count n,
clamped to Nat (Int division in Lean rounds toward negative infinity). -/
def ratioCount (q : ℚ) (n : Nat) : Nat :=
  ((q.num * n) / (q.den : Int)).toNat

/-! ## Border segments (modelled from the spec, sections 3 and 4.1) -/

/-- The k-th of the six axial unit directions (k taken modulo 6). -/
def dirOf (k : Nat) : Hex :=
  match k % 6 with
  | 0 => ⟨1, 0⟩
  | 1 => ⟨1, -1⟩
  | 2 => ⟨0, -1⟩
  | 3 => ⟨-1, 0⟩
  | 4 => ⟨-1, 1⟩
  | _ => ⟨0, 1⟩

/-- Modelled from the spec: border segment k of 6 around the perimeter of a
radius-R chunk — the R ring cells starting at the k-th corner and walking
along direction k + 2. -/
def borderSegment (R : Nat) (k : Fin 6) : List Hex :=
  (List.range R).map (fun j : Nat =>
    ⟨(R : Int) * (dirOf k.val).q + (j : Int) * (dirOf (k.val + 2)).q,
      (R : Int) * (dirOf k.val).r + (j : Int) * (dirOf (k.val + 2)).r⟩)

/-- The committed state of a neighbor border segment: some committed
entry-point positions, or none when uncommitted. The full neighbor state is
a list of 6 such entries. -/
def NeighborState : Type := List (Option (List Hex))

/-- Neighbor state of segment k. -/
def nbGet (nb : NeighborState) (k : Fin 6) : Option (List Hex) :=
  nb.getD k.val none

/-- Modelled from the spec: the border entry points this chunk generates on
segment k when the neighbor has not committed the segment. -/
def genBorderTargets (R : Nat) (cfg : GenerationConfig) (k : Fin 6) : List Hex :=
  (borderSegment R k).take cfg.roadsPerBorder

/-- Modelled from the spec (border compatibility resolver): with
connectToNeighbors enabled and a committed neighbor segment, this chunk's
entry points are exactly the committed positions; otherwise the chunk's own
generated positions stand. -/
def borderTargets (R : Nat) (cfg : GenerationConfig) (nb : NeighborState)
    (k : Fin 6) : List Hex :=
  if cfg.connectToNeighbors then
    match nbGet nb k with
    | some ps => ps
    | none => genBorderTargets R cfg k
  else genBorderTargets R cfg k

/-- All border entry targets of the 6 segments, concatenated. -/
def allBorderTargets (R : Nat) (cfg : GenerationConfig)
    (nb : NeighborState) : List Hex :=
  (List.finRange 6).flatMap (fun k => borderTargets R cfg nb k)

/-! ## Voronoi region assignment (modelled from the spec, section 4.2) -/

/-- The per-seed category list: forest seeds first, then water, then grass,
in insertion order. -/
def voronoiCats (vs : VoronoiSeeds) : List TileTag :=
  List.replicate vs.forest .forest ++ List.replicate vs.water .water ++
    List.replicate vs.grass .grass

/-- Total requested Voronoi seed count. -/
def voronoiSeedCount (vs : VoronoiSeeds) : Nat :=
  vs.forest + vs.water + vs.grass

/-- Modelled from the spec: scatter the Voronoi seed points uniformly at
random over the grid without duplicate coordinates, pairing each with its
category in insertion order. -/
def vorSeeds (R : Nat) (cfg : GenerationConfig) (S : Nat) :
    List (Hex × TileTag) :=
  (selectLoop chooserRandom (stageRng S 0)
      (voronoiSeedCount cfg.voronoiSeeds) [] (hexGrid R)).zip
    (voronoiCats cfg.voronoiSeeds)

/-- Modelled from the spec: assign a cell the category of its nearest seed
by axial distance, ties broken by seed insertion order (lower index wins);
grass when there are no seeds at all. -/
def regionOf (seeds : List (Hex × TileTag)) (c : Hex) : TileTag :=
  match seeds with
  | [] => .grass
  | s0 :: rest =>
    (rest.foldl
      (fun best s => if hexDist s.1 c < hexDist best.1 c then s else best)
      s0).2

/-- The Voronoi region layer of a generation run. -/
def regionMap (R : Nat) (cfg : GenerationConfig) (S : Nat) (c : Hex) :
    TileTag :=
  regionOf (vorSeeds R cfg S) c

/-! ## Road network synthesis (modelled from the spec, section 4.3) -/

/-- Target road-cell count: density times total cells, rounded down. -/
def roadTarget (R : Nat) (cfg : GenerationConfig) : Nat :=
  ratioCount cfg.roadDensity (hexGrid R).length

/-- Number of road seed points: seedPointRatio times the target road count,
at least one. -/
def roadSeedCount (R : Nat) (cfg : GenerationConfig) : Nat :=
  max 1 (ratioCount cfg.roadSeedPointRatio (roadTarget R cfg))

/-- Modelled from the spec: road seed placement is biased toward non-water
cells, water being impassable for roads. -/
def roadSeedPool (R : Nat) (cfg : GenerationConfig) (S : Nat) : List Hex :=
  let nonWater :=
    (hexGrid R).filter (fun c => decide (regionMap R cfg S c ≠ .water))
  if nonWater.isEmpty then hexGrid R else nonWater

/-- The road seed points of a generation run. -/
def roadSeeds (R : Nat) (cfg : GenerationConfig) (S : Nat) : List Hex :=
  selectLoop chooserRandom (stageRng S 1) (roadSeedCount R cfg) []
    (roadSeedPool R cfg S)

/-- The cell of l nearest to t (t itself when l is empty). -/
def nearestIn (l : List Hex) (t : Hex) : Hex :=
  match l with
  | [] => t
  | x :: xs =>
    xs.foldl (fun best c => if hexDist c t < hexDist best t then c else best) x

/-- Modelled from the spec: connect target t to the existing road network by
adding every cell of a shortest hex path from the nearest road cell to t. -/
def addRoadPath (roads : List Hex) (t : Hex) : List Hex :=
  roads ++ hexPath (nearestIn roads t) t

/-- The first road cell the network grows from: the first road seed, or the
center for a seedless run. -/
def roadBase (R : Nat) (cfg : GenerationConfig) (S : Nat) : Hex :=
  (roadSeeds R cfg S).headD ⟨0, 0⟩

/-- Modelled from the spec: the connected road network grown by repeatedly
connecting each road seed to the nearest already-connected road cell via a
shortest hex path. -/
def roadsConnected (R : Nat) (cfg : GenerationConfig) (S : Nat) : List Hex :=
  (roadSeeds R cfg S).foldl addRoadPath [roadBase R cfg S]

/-- Modelled from the spec: after seed connection, extend the network so
every border segment's entry targets (committed neighbor positions, or this
chunk's generated positions) are road cells. -/
def roadsFinal (R : Nat) (cfg : GenerationConfig) (S : Nat)
    (nb : NeighborState) : List Hex :=
  (allBorderTargets R cfg nb).foldl addRoadPath (roadsConnected R cfg S)

/-! ## Building placement (modelled from the spec, section 4.5) -/

/-- The tile type of a cell immediately before building placement: the road
layer over the Voronoi region layer. -/
def preType (R : Nat) (cfg : GenerationConfig) (S : Nat) (nb : NeighborState)
    (c : Hex) : TileTag :=
  if c ∈ roadsFinal R cfg S nb then .road else regionMap R cfg S c

/-- Number of road-tagged neighbors of a cell. -/
def roadNeighborCount (R : Nat) (cfg : GenerationConfig) (S : Nat)
    (nb : NeighborState) (c : Hex) : Nat :=
  ((hexNeighbors c).filter
    (fun x => decide (x ∈ roadsFinal R cfg S nb))).length

/-- Modelled from the spec: a cell is eligible for a building iff its
current type is grass and it has at least minAdjacentRoads road neighbors. -/
def eligibleCells (R : Nat) (cfg : GenerationConfig) (S : Nat)
    (nb : NeighborState) : List Hex :=
  (hexGrid R).filter (fun c =>
    decide (preType R cfg S nb c = .grass) &&
      decide (cfg.minAdjacentRoads ≤ roadNeighborCount R cfg S nb c))

/-- Requested building count: density ratio times total cells, rounded
down. -/
def buildingTarget (R : Nat) (cfg : GenerationConfig) : Nat :=
  ratioCount (densityRatioOf cfg) (hexGrid R).length

/-- Modelled from the spec: the building placer selects up to the requested
count from the eligible cells under the configured clustering mode,
returning fewer when the eligible count is insufficient. -/
def buildings (R : Nat) (cfg : GenerationConfig) (S : Nat)
    (nb : NeighborState) : List Hex :=
  selectLoop (chooserOfMode cfg.clustering) (stageRng S 2)
    (buildingTarget R cfg) [] (eligibleCells R cfg S nb)

/-! ## Layout assembly (modelled from the spec, section 4.6) -/

/-- Merged tile type of a cell, with fixed precedence
road over building over Voronoi region. -/
def finalType (R : Nat) (cfg : GenerationConfig) (S : Nat)
    (nb : NeighborState) (c : Hex) : TileTag :=
  if c ∈ roadsFinal R cfg S nb then .road
  else if c ∈ buildings R cfg S nb then .building
  else regionMap R cfg S c

/-- The committed border entry-point lists handed back for future
neighbors: one list per segment. -/
def borderCommits (R : Nat) (cfg : GenerationConfig) (nb : NeighborState) :
    List (List Hex) :=
  (List.finRange 6).map (fun k => borderTargets R cfg nb k)

/-- The artifact of one generation call: the per-cell tile grid, the
committed border entry points, and the building shortfall count. -/
structure ChunkResult where
  tiles : List (Hex × TileTag)
  commits : List (List Hex)
  buildingShortfall : Nat
deriving DecidableEq, Repr

/-- Modelled from the spec: one full generation run over a validated radius,
composing grid, regions, roads, border resolution, buildings and assembly. -/
def genCore (R : Nat) (cfg : GenerationConfig) (S : Nat)
    (nb : NeighborState) : ChunkResult where
  tiles := (hexGrid R).map (fun c => (c, finalType R cfg S nb c))
  commits := borderCommits R cfg nb
  buildingShortfall :=
    buildingTarget R cfg - (buildings R cfg S nb).length

/-- Modelled from the spec: the Hex Grid Index enumeration operation, which
fails with InvalidRadius when R exceeds maxRings or is negative and
otherwise returns the cell enumeration. -/
def hexGridIndex (R : Int) : Except GenError (List Hex) :=
  if R < 0 ∨ (CONSTRAINTS.maxRings : Int) < R then .error .InvalidRadius
  else .ok (hexGrid R.toNat)

/-- Modelled from the spec: the full generation entry point — validate the
radius and the Voronoi seed demand, then run the engine. -/
def generateChunk (R : Int) (cfg : GenerationConfig) (S : Nat)
    (nb : NeighborState) : Except GenError ChunkResult :=
  match hexGridIndex R with
  | .error e => .error e
  | .ok cells =>
    if cells.length < voronoiSeedCount cfg.voronoiSeeds then
      .error .InsufficientGridSize
    else .ok (genCore R.toNat cfg S nb)

/-- The road-tagged cells of an emitted tile grid. -/
def outputRoadCells (res : ChunkResult) : List Hex :=
  (res.tiles.filter (fun p => decide (p.2 = TileTag.road))).map Prod.fst

/-- Hex adjacency restricted to a cell set: the edge relation of the road
graph over a road cell list. -/
def AdjWithin (l : List Hex) (x y : Hex) : Prop :=
  x ∈ l ∧ y ∈ l ∧ hexDist x y = 1

/-- A cell list is connected when every two member cells are joined by a
chain of hex-adjacent member cells. -/
def ConnectedCells (l : List Hex) : Prop :=
  ∀ a ∈ l, ∀ b ∈ l, Relation.ReflTransGen (AdjWithin l) a b

/-- Number of road cells touching border segment k in a generation run. -/
def roadTouchCount (R : Nat) (cfg : GenerationConfig) (S : Nat)
    (nb : NeighborState) (k : Fin 6) : Nat :=
  ((borderSegment R k).filter
    (fun c => decide (c ∈ roadsFinal R cfg S nb))).length

/-- Well-formedness of a neighbor state for a radius-R chunk: every
committed position lies within the grid. -/
def NbInGrid (R : Nat) (nb : NeighborState) : Prop :=
  ∀ k : Fin 6, ∀ ps, nbGet nb k = some ps → ∀ p ∈ ps, hexNorm p ≤ R

/-- Well-formedness of committed neighbor segments as produced by earlier
generation runs: enough committed positions per segment, no duplicates, and
every position on the shared border segment. -/
def NbSegmentWF (R : Nat) (cfg : GenerationConfig) (nb : NeighborState) :
    Prop :=
  ∀ k : Fin 6, ∀ ps, nbGet nb k = some ps →
    cfg.roadsPerBorder ≤ ps.length ∧ ps.Nodup ∧
      ∀ p ∈ ps, p ∈ borderSegment R k

/-- A fully uncommitted neighbor state. -/
def nbNone : NeighborState := [none, none, none, none, none, none]

/-- A neighbor state whose segment 0 is committed at one position of the
radius-2 border segment 0. -/
def nbSample : NeighborState :=
  [some [⟨2, 0⟩], none, none, none, none, none]

/-- A concrete generation configuration with the default constraint values,
written with kernel-reducible rationals for concrete evaluation. -/
def sampleConfig : GenerationConfig where
  voronoiSeeds := ⟨4, 3, 6⟩
  roadDensity := mkRat 1 10
  roadSeedPointRatio := mkRat 1 4
  roadsPerBorder := 1
  connectToNeighbors := true
  buildingDensityLevel := .medium
  buildingDensityRatios := ⟨mkRat 1 20, mkRat 1 10, mkRat 3 20⟩
  buildingSizeHint := .medium
  clustering := .random
  grassRatio := mkRat 3 10
  minAdjacentRoads := 1

/-! ## Basic hex geometry lemmas -/

theorem hex_ne_iff (a b : Hex) : a ≠ b ↔ a.q ≠ b.q ∨ a.r ≠ b.r := by
  cases a; cases b; simp [Hex.mk.injEq]; tauto

theorem hexDist_eq_zero_iff (a b : Hex) : hexDist a b = 0 ↔ a = b := by
  cases a; cases b
  simp only [hexDist, hexNorm, Hex.mk.injEq]
  omega

theorem hexDist_symm (a b : Hex) : hexDist a b = hexDist b a := by
  simp only [hexDist, hexNorm]
  omega

theorem hexStep_dist (a b : Hex) (h : a ≠ b) :
    hexDist (hexStep a b) b + 1 = hexDist a b := by
  rw [hex_ne_iff] at h
  unfold hexStep
  split_ifs <;> simp only [hexDist, hexNorm] <;> omega

theorem hexStep_adj (a b : Hex) :
    hexDist a (hexStep a b) = 1 := by
  unfold hexStep
  split_ifs <;> simp only [hexDist, hexNorm] <;> omega

theorem hexBetween_self_left (a b : Hex) : HexBetween a b a := by
  unfold HexBetween; omega

theorem hexBetween_step (a b : Hex) (h : a ≠ b) :
    HexBetween a b (hexStep a b) := by
  rw [hex_ne_iff] at h
  obtain ⟨aq, ar⟩ := a
  obtain ⟨bq, br⟩ := b
  unfold hexStep HexBetween
  dsimp only at h ⊢
  split_ifs <;> dsimp only <;> omega

theorem hexBetween_trans (a b a' c : Hex) (h1 : HexBetween a b a')
    (h2 : HexBetween a' b c) : HexBetween a b c := by
  unfold HexBetween at *
  omega

theorem natAbs_between {x y z : Int}
    (h : x ≤ y ∧ y ≤ z ∨ z ≤ y ∧ y ≤ x) :
    y.natAbs ≤ max x.natAbs z.natAbs := by
  omega

theorem norm_le_of_between {a b c : Hex} (h : HexBetween a b c) :
    hexNorm c ≤ max (hexNorm a) (hexNorm b) := by
  obtain ⟨hq, hr, hs⟩ := h
  have h1 := natAbs_between hq
  have h2 := natAbs_between hr
  have h3 := natAbs_between hs
  have e1 : max a.q.natAbs b.q.natAbs ≤ max (hexNorm a) (hexNorm b) :=
    max_le_max (by unfold hexNorm; omega) (by unfold hexNorm; omega)
  have e2 : max a.r.natAbs b.r.natAbs ≤ max (hexNorm a) (hexNorm b) :=
    max_le_max (by unfold hexNorm; omega) (by unfold hexNorm; omega)
  have e3 : max (a.q + a.r).natAbs (b.q + b.r).natAbs ≤
      max (hexNorm a) (hexNorm b) :=
    max_le_max (by unfold hexNorm; omega) (by unfold hexNorm; omega)
  show max c.q.natAbs (max c.r.natAbs (c.q + c.r).natAbs) ≤ _
  exact Nat.max_le.2 ⟨le_trans h1 e1,
    Nat.max_le.2 ⟨le_trans h2 e2, le_trans h3 e3⟩⟩

/-! ## Shortest-path lemmas -/

theorem hexPathGo_self_mem (n : Nat) (a b : Hex) : a ∈ hexPathGo n a b := by
  cases n with
  | zero => simp [hexPathGo]
  | succ n =>
    unfold hexPathGo
    split_ifs <;> simp

theorem hexPathGo_ne_nil (n : Nat) (a b : Hex) : hexPathGo n a b ≠ [] := by
  cases n with
  | zero => simp [hexPathGo]
  | succ n =>
    unfold hexPathGo
    split_ifs <;> simp

theorem hexPathGo_last_mem (n : Nat) (a b : Hex) (h : hexDist a b ≤ n) :
    b ∈ hexPathGo n a b := by
  induction n generalizing a with
  | zero =>
    have : a = b := (hexDist_eq_zero_iff a b).mp (Nat.le_zero.mp h)
    subst this
    simp [hexPathGo]
  | succ n ih =>
    unfold hexPathGo
    by_cases hab : a = b
    · simp [hab]
    · rw [if_neg hab]
      have hd := hexStep_dist a b hab
      exact List.mem_cons_of_mem a (ih (hexStep a b) (by omega))

theorem hexPathGo_between (n : Nat) (a b : Hex) (h : hexDist a b ≤ n) :
    ∀ c ∈ hexPathGo n a b, HexBetween a b c := by
  induction n generalizing a with
  | zero =>
    intro c hc
    simp [hexPathGo] at hc
    rw [hc]
    exact hexBetween_self_left a b
  | succ n ih =>
    intro c hc
    unfold hexPathGo at hc
    by_cases hab : a = b
    · rw [if_pos hab] at hc
      simp at hc
      rw [hc]
      exact hexBetween_self_left a b
    · rw [if_neg hab] at hc
      rcases List.mem_cons.mp hc with hc | hc
      · rw [hc]
        exact hexBetween_self_left a b
      · have hd := hexStep_dist a b hab
        exact hexBetween_trans a b (hexStep a b) c (hexBetween_step a b hab)
          (ih (hexStep a b) (by omega) c hc)

theorem rtg_adj_mono {S T : List Hex} (hST : ∀ x, x ∈ S → x ∈ T)
    {a b : Hex} (h : Relation.ReflTransGen (AdjWithin S) a b) :
    Relation.ReflTransGen (AdjWithin T) a b :=
  Relation.ReflTransGen.mono
    (fun x y hxy => ⟨hST x hxy.1, hST y hxy.2.1, hxy.2.2⟩) h

theorem adjWithin_symm (l : List Hex) : Symmetric (AdjWithin l) := by
  intro x y h
  exact ⟨h.2.1, h.1, by rw [hexDist_symm]; exact h.2.2⟩

theorem rtg_adj_symm {l : List Hex} {a b : Hex}
    (h : Relation.ReflTransGen (AdjWithin l) a b) :
    Relation.ReflTransGen (AdjWithin l) b a :=
  (Relation.ReflTransGen.symmetric (adjWithin_symm l)) h

theorem hexPathGo_start_rtg (n : Nat) (a b : Hex) (h : hexDist a b ≤ n) :
    ∀ c ∈ hexPathGo n a b,
      Relation.ReflTransGen (AdjWithin (hexPathGo n a b)) a c := by
  induction n generalizing a with
  | zero =>
    intro c hc
    simp [hexPathGo] at hc
    subst hc
    exact Relation.ReflTransGen.refl
  | succ n ih =>
    intro c hc
    by_cases hab : a = b
    · unfold hexPathGo at hc ⊢
      rw [if_pos hab] at hc ⊢
      simp at hc
      subst hc
      exact Relation.ReflTransGen.refl
    · unfold hexPathGo at hc ⊢
      rw [if_neg hab] at hc ⊢
      rcases List.mem_cons.mp hc with hc | hc
      · subst hc
        exact Relation.ReflTransGen.refl
      · have hd := hexStep_dist a b hab
        have htail := ih (hexStep a b) (by omega) c hc
        have htail' :
            Relation.ReflTransGen
              (AdjWithin (a :: hexPathGo n (hexStep a b) b)) (hexStep a b) c :=
          rtg_adj_mono (fun x hx => List.mem_cons_of_mem a hx) htail
        refine Relation.ReflTransGen.head ?_ htail'
        exact ⟨List.mem_cons_self a _,
          List.mem_cons_of_mem a (hexPathGo_self_mem n (hexStep a b) b),
          hexStep_adj a b⟩

theorem hexPath_self_mem (a b : Hex) : a ∈ hexPath a b :=
  hexPathGo_self_mem (hexDist a b) a b

theorem hexPath_ne_nil (a b : Hex) : hexPath a b ≠ [] :=
  hexPathGo_ne_nil (hexDist a b) a b

theorem hexPath_last_mem (a b : Hex) : b ∈ hexPath a b :=
  hexPathGo_last_mem (hexDist a b) a b le_rfl

theorem hexPath_norm_le (a b : Hex) :
    ∀ c ∈ hexPath a b, hexNorm c ≤ max (hexNorm a) (hexNorm b) :=
  fun c hc =>
    norm_le_of_between (hexPathGo_between (hexDist a b) a b le_rfl c hc)

theorem hexPath_start_rtg (a b : Hex) :
    ∀ c ∈ hexPath a b,
      Relation.ReflTransGen (AdjWithin (hexPath a b)) a c :=
  hexPathGo_start_rtg (hexDist a b) a b le_rfl

/-! ## Selection loop lemmas -/

theorem selectLoop_subset (ch : ChooserFun) (rng k : Nat)
    (chosen rem : List Hex) :
    ∀ x ∈ selectLoop ch rng k chosen rem, x ∈ rem := by
  induction k generalizing rng chosen rem with
  | zero => intro x hx; simp [selectLoop] at hx
  | succ k ih =>
    intro x hx
    simp only [selectLoop] at hx
    by_cases hre : rem.isEmpty
    · rw [if_pos hre] at hx
      simp at hx
    · rw [if_neg hre] at hx
      have hlen : 0 < rem.length := by
        cases rem with
        | nil => simp at hre
        | cons y ys => simp
      rcases List.mem_cons.mp hx with hx | hx
      · rw [hx]
        have hi : (ch rng chosen rem).1 % rem.length < rem.length :=
          Nat.mod_lt _ hlen
        rw [List.getD_eq_getElem rem ⟨0, 0⟩ hi]
        exact List.getElem_mem hi
      · exact List.eraseIdx_subset rem _ (ih _ _ _ x hx)

theorem selectLoop_length (ch : ChooserFun) (rng k : Nat)
    (chosen rem : List Hex) :
    (selectLoop ch rng k chosen rem).length = min k rem.length := by
  induction k generalizing rng chosen rem with
  | zero => simp [selectLoop]
  | succ k ih =>
    simp only [selectLoop]
    by_cases hre : rem.isEmpty
    · rw [if_pos hre]
      have : rem = [] := List.isEmpty_iff.mp hre
      subst this
      simp
    · rw [if_neg hre]
      have hlen : 0 < rem.length := by
        cases rem with
        | nil => simp at hre
        | cons y ys => simp
      have hi : (ch rng chosen rem).1 % rem.length < rem.length :=
        Nat.mod_lt _ hlen
      have herase : (rem.eraseIdx ((ch rng chosen rem).1 % rem.length)).length
          = rem.length - 1 := by
        rw [List.length_eraseIdx]
        simp [hi]
      simp only [List.length_cons, ih, herase]
      omega

/-! ## Membership of fold-based choices -/

theorem foldl_sel_mem {α : Type} (P : α → α → Prop)
    [inst : ∀ x y, Decidable (P x y)] (xs : List α) (init : α) :
    xs.foldl (fun best c => if P best c then c else best) init ∈ init :: xs := by
  induction xs generalizing init with
  | nil => simp
  | cons x xs ih =>
    simp only [List.foldl_cons]
    rcases List.mem_cons.mp (ih (if P init x then x else init)) with h | h
    · rw [h]
      split_ifs <;> simp
    · exact List.mem_cons_of_mem _ (List.mem_cons_of_mem _ h)

theorem nearestIn_mem (l : List Hex) (t : Hex) (h : l ≠ []) :
    nearestIn l t ∈ l := by
  cases l with
  | nil => exact absurd rfl h
  | cons x xs =>
    exact foldl_sel_mem (fun best c => hexDist c t < hexDist best t) xs x

theorem regionOf_mem (seeds : List (Hex × TileTag)) (c : Hex) :
    regionOf seeds c = .grass ∨
      ∃ p ∈ seeds, regionOf seeds c = p.2 := by
  cases seeds with
  | nil => left; rfl
  | cons s0 rest =>
    right
    have hmem :=
      foldl_sel_mem (fun best s : Hex × TileTag => hexDist s.1 c < hexDist best.1 c)
        rest s0
    exact ⟨_, hmem, rfl⟩

/-! ## Grid membership -/

theorem mem_intRangeSym (R : Nat) (x : Int) :
    x ∈ intRangeSym R ↔ -(R : Int) ≤ x ∧ x ≤ R := by
  unfold intRangeSym
  rw [List.mem_map]
  constructor
  · rintro ⟨i, hi, rfl⟩
    rw [List.mem_range] at hi
    omega
  · intro h
    refine ⟨(x + R).toNat, ?_, ?_⟩
    · rw [List.mem_range]
      omega
    · omega

theorem mem_hexGrid (R : Nat) (c : Hex) : c ∈ hexGrid R ↔ hexNorm c ≤ R := by
  simp only [hexGrid, List.mem_flatMap, List.mem_filterMap]
  constructor
  · rintro ⟨q, hq, r, hr, hif⟩
    split_ifs at hif with h
    simp only [Option.some.injEq] at hif
    rw [← hif]
    exact h
  · intro h
    refine ⟨c.q, ?_, c.r, ?_, ?_⟩
    · rw [mem_intRangeSym]
      unfold hexNorm at h
      omega
    · rw [mem_intRangeSym]
      unfold hexNorm at h
      omega
    · have hc : (⟨c.q, c.r⟩ : Hex) = c := rfl
      rw [hc, if_pos h]

theorem center_mem_hexGrid (R : Nat) : (⟨0, 0⟩ : Hex) ∈ hexGrid R := by
  rw [mem_hexGrid]
  simp [hexNorm]

/-! ## Road growth lemmas -/

theorem subset_addRoadPath (roads : List Hex) (t : Hex) :
    roads ⊆ addRoadPath roads t :=
  fun _ hx => List.mem_append_left _ hx

theorem mem_addRoadPath_target (roads : List Hex) (t : Hex) :
    t ∈ addRoadPath roads t :=
  List.mem_append_right _ (hexPath_last_mem _ t)

theorem connectedCells_singleton (x : Hex) : ConnectedCells [x] := by
  intro a ha b hb
  simp at ha hb
  rw [ha, hb]

theorem addRoadPath_connected (roads : List Hex) (t : Hex)
    (hc : ConnectedCells roads) (hne : roads ≠ []) :
    ConnectedCells (addRoadPath roads t) := by
  have ha0 : nearestIn roads t ∈ roads := nearestIn_mem roads t hne
  have hub : ∀ x ∈ addRoadPath roads t,
      Relation.ReflTransGen (AdjWithin (addRoadPath roads t)) x
        (nearestIn roads t) := by
    intro x hx
    rcases List.mem_append.mp hx with hx | hx
    · exact rtg_adj_mono (fun y hy => List.mem_append_left _ hy)
        (hc x hx _ ha0)
    · exact rtg_adj_symm
        (rtg_adj_mono (fun y hy => List.mem_append_right _ hy)
          (hexPath_start_rtg (nearestIn roads t) t x hx))
  intro a ha b hb
  exact (hub a ha).trans (rtg_adj_symm (hub b hb))

theorem addRoadPath_norm (roads : List Hex) (t : Hex) (R : Nat)
    (hS : ∀ x ∈ roads, hexNorm x ≤ R) (ht : hexNorm t ≤ R)
    (hne : roads ≠ []) :
    ∀ x ∈ addRoadPath roads t, hexNorm x ≤ R := by
  intro x hx
  rcases List.mem_append.mp hx with hx | hx
  · exact hS x hx
  · refine le_trans (hexPath_norm_le _ t x hx) ?_
    exact max_le (hS _ (nearestIn_mem roads t hne)) ht

theorem foldl_addRoadPath_subset (ts roads : List Hex) :
    roads ⊆ ts.foldl addRoadPath roads := by
  induction ts generalizing roads with
  | nil => exact fun _ hx => hx
  | cons t ts ih =>
    intro x hx
    exact ih (addRoadPath roads t) (subset_addRoadPath roads t hx)

theorem foldl_addRoadPath_ne_nil (ts roads : List Hex) (hne : roads ≠ []) :
    ts.foldl addRoadPath roads ≠ [] := by
  obtain ⟨x, hx⟩ := List.exists_mem_of_ne_nil roads hne
  exact List.ne_nil_of_mem (foldl_addRoadPath_subset ts roads hx)

theorem foldl_addRoadPath_connected (ts roads : List Hex)
    (hc : ConnectedCells roads) (hne : roads ≠ []) :
    ConnectedCells (ts.foldl addRoadPath roads) := by
  induction ts generalizing roads with
  | nil => exact hc
  | cons t ts ih =>
    exact ih (addRoadPath roads t)
      (addRoadPath_connected roads t hc hne)
      (List.ne_nil_of_mem (subset_addRoadPath roads t
        ((List.exists_mem_of_ne_nil roads hne).choose_spec)))

theorem mem_foldl_addRoadPath (ts roads : List Hex) (t : Hex) (ht : t ∈ ts) :
    t ∈ ts.foldl addRoadPath roads := by
  induction ts generalizing roads with
  | nil => simp at ht
  | cons u ts ih =>
    rcases List.mem_cons.mp ht with ht | ht
    · rw [ht]
      exact foldl_addRoadPath_subset ts (addRoadPath roads u)
        (mem_addRoadPath_target roads u)
    · exact ih (addRoadPath roads u) ht

theorem foldl_addRoadPath_norm (ts roads : List Hex) (R : Nat)
    (hS : ∀ x ∈ roads, hexNorm x ≤ R) (hts : ∀ t ∈ ts, hexNorm t ≤ R)
    (hne : roads ≠ []) :
    ∀ x ∈ ts.foldl addRoadPath roads, hexNorm x ≤ R := by
  induction ts generalizing roads with
  | nil => exact hS
  | cons t ts ih =>
    exact ih (addRoadPath roads t)
      (addRoadPath_norm roads t R hS (hts t (List.mem_cons_self t ts)) hne)
      (fun u hu => hts u (List.mem_cons_of_mem t hu))
      (List.ne_nil_of_mem (subset_addRoadPath roads t
        ((List.exists_mem_of_ne_nil roads hne).choose_spec)))

/-! ## Border segment lemmas -/

theorem borderSegment_norm_le (R : Nat) (k : Fin 6) :
    ∀ c ∈ borderSegment R k, hexNorm c ≤ R := by
  intro c hc
  fin_cases k <;>
    (simp only [borderSegment, dirOf, List.mem_map, List.mem_range] at hc
     obtain ⟨j, hj, rfl⟩ := hc
     simp only [hexNorm]
     omega)

theorem borderSegment_nodup (R : Nat) (k : Fin 6) :
    (borderSegment R k).Nodup := by
  fin_cases k <;>
    (refine List.Nodup.map ?_ (List.nodup_range R)
     intro j1 j2 hj
     simp only [dirOf, Hex.mk.injEq] at hj
     omega)

theorem borderSegment_length (R : Nat) (k : Fin 6) :
    (borderSegment R k).length = R := by
  simp [borderSegment]

/-! ## Pipeline lemmas: road network -/

theorem connectedCells_congr {S T : List Hex} (h : ∀ x, x ∈ S ↔ x ∈ T)
    (hS : ConnectedCells S) : ConnectedCells T := by
  intro a ha b hb
  exact rtg_adj_mono (fun x hx => (h x).1 hx)
    (hS a ((h a).2 ha) b ((h b).2 hb))

theorem roadSeedPool_subset (R : Nat) (cfg : GenerationConfig) (S : Nat) :
    roadSeedPool R cfg S ⊆ hexGrid R := by
  intro x hx
  simp only [roadSeedPool] at hx
  split at hx
  · exact hx
  · exact List.mem_of_mem_filter hx

theorem roadSeeds_subset_grid (R : Nat) (cfg : GenerationConfig) (S : Nat) :
    ∀ x ∈ roadSeeds R cfg S, x ∈ hexGrid R :=
  fun x hx =>
    roadSeedPool_subset R cfg S (selectLoop_subset _ _ _ _ _ x hx)

theorem roadBase_mem_grid (R : Nat) (cfg : GenerationConfig) (S : Nat) :
    roadBase R cfg S ∈ hexGrid R := by
  unfold roadBase
  cases h : roadSeeds R cfg S with
  | nil => exact center_mem_hexGrid R
  | cons y ys =>
    show y ∈ hexGrid R
    apply roadSeeds_subset_grid R cfg S
    rw [h]
    exact List.mem_cons_self y ys

theorem roadsConnected_connected (R : Nat) (cfg : GenerationConfig)
    (S : Nat) : ConnectedCells (roadsConnected R cfg S) :=
  foldl_addRoadPath_connected _ _ (connectedCells_singleton _) (by simp)

theorem roadsConnected_ne_nil (R : Nat) (cfg : GenerationConfig) (S : Nat) :
    roadsConnected R cfg S ≠ [] :=
  foldl_addRoadPath_ne_nil _ _ (by simp)

theorem roadsConnected_norm (R : Nat) (cfg : GenerationConfig) (S : Nat) :
    ∀ x ∈ roadsConnected R cfg S, hexNorm x ≤ R := by
  apply foldl_addRoadPath_norm
  · intro x hx
    simp at hx
    rw [hx]
    exact (mem_hexGrid R _).mp (roadBase_mem_grid R cfg S)
  · exact fun t ht => (mem_hexGrid R t).mp (roadSeeds_subset_grid R cfg S t ht)
  · simp

theorem borderTargets_norm (R : Nat) (cfg : GenerationConfig)
    (nb : NeighborState) (k : Fin 6) (hnb : NbInGrid R nb) :
    ∀ t ∈ borderTargets R cfg nb k, hexNorm t ≤ R := by
  intro t ht
  have hgen : ∀ u ∈ genBorderTargets R cfg k, hexNorm u ≤ R := fun u hu =>
    borderSegment_norm_le R k u (List.take_subset _ _ hu)
  unfold borderTargets at ht
  by_cases hcn : cfg.connectToNeighbors
  · rw [if_pos hcn] at ht
    cases hnbk : nbGet nb k with
    | none =>
      rw [hnbk] at ht
      exact hgen t ht
    | some ps =>
      rw [hnbk] at ht
      exact hnb k ps hnbk t ht
  · rw [if_neg hcn] at ht
    exact hgen t ht

theorem allBorderTargets_norm (R : Nat) (cfg : GenerationConfig)
    (nb : NeighborState) (hnb : NbInGrid R nb) :
    ∀ t ∈ allBorderTargets R cfg nb, hexNorm t ≤ R := by
  intro t ht
  unfold allBorderTargets at ht
  rw [List.mem_flatMap] at ht
  obtain ⟨k, _, ht⟩ := ht
  exact borderTargets_norm R cfg nb k hnb t ht

theorem roadsFinal_connected (R : Nat) (cfg : GenerationConfig) (S : Nat)
    (nb : NeighborState) : ConnectedCells (roadsFinal R cfg S nb) :=
  foldl_addRoadPath_connected _ _ (roadsConnected_connected R cfg S)
    (roadsConnected_ne_nil R cfg S)

theorem roadsFinal_norm (R : Nat) (cfg : GenerationConfig) (S : Nat)
    (nb : NeighborState) (hnb : NbInGrid R nb) :
    ∀ x ∈ roadsFinal R cfg S nb, hexNorm x ≤ R :=
  foldl_addRoadPath_norm _ _ R (roadsConnected_norm R cfg S)
    (allBorderTargets_norm R cfg nb hnb) (roadsConnected_ne_nil R cfg S)

theorem mem_roadsFinal_of_target (R : Nat) (cfg : GenerationConfig) (S : Nat)
    (nb : NeighborState) (k : Fin 6) (t : Hex)
    (ht : t ∈ borderTargets R cfg nb k) : t ∈ roadsFinal R cfg S nb := by
  unfold roadsFinal
  apply mem_foldl_addRoadPath
  unfold allBorderTargets
  rw [List.mem_flatMap]
  exact ⟨k, List.mem_finRange k, ht⟩

/-! ## Pipeline lemmas: regions and assembled output -/

theorem vorSeeds_snd (R : Nat) (cfg : GenerationConfig) (S : Nat) :
    ∀ p ∈ vorSeeds R cfg S,
      p.2 = TileTag.forest ∨ p.2 = TileTag.water ∨ p.2 = TileTag.grass := by
  intro p hp
  unfold vorSeeds at hp
  have h2 := (List.of_mem_zip hp).2
  unfold voronoiCats at h2
  rcases List.mem_append.mp h2 with h | h
  · rcases List.mem_append.mp h with h | h
    · exact Or.inl (List.eq_of_mem_replicate h)
    · exact Or.inr (Or.inl (List.eq_of_mem_replicate h))
  · exact Or.inr (Or.inr (List.eq_of_mem_replicate h))

theorem regionMap_cases (R : Nat) (cfg : GenerationConfig) (S : Nat)
    (c : Hex) :
    regionMap R cfg S c = TileTag.forest ∨
      regionMap R cfg S c = TileTag.water ∨
        regionMap R cfg S c = TileTag.grass := by
  unfold regionMap
  rcases regionOf_mem (vorSeeds R cfg S) c with h | ⟨p, hp, h⟩
  · exact Or.inr (Or.inr h)
  · rw [h]
    exact vorSeeds_snd R cfg S p hp

theorem finalType_road_iff (R : Nat) (cfg : GenerationConfig) (S : Nat)
    (nb : NeighborState) (c : Hex) :
    finalType R cfg S nb c = TileTag.road ↔ c ∈ roadsFinal R cfg S nb := by
  unfold finalType
  constructor
  · intro h
    by_contra hc
    rw [if_neg hc] at h
    by_cases hb : c ∈ buildings R cfg S nb
    · rw [if_pos hb] at h
      exact TileTag.noConfusion h
    · rw [if_neg hb] at h
      rcases regionMap_cases R cfg S c with h' | h' | h' <;> rw [h] at h' <;>
        exact TileTag.noConfusion h'
  · intro h
    rw [if_pos h]

theorem mem_outputRoadCells (R : Nat) (cfg : GenerationConfig) (S : Nat)
    (nb : NeighborState) (x : Hex) :
    x ∈ outputRoadCells (genCore R cfg S nb) ↔
      x ∈ hexGrid R ∧ x ∈ roadsFinal R cfg S nb := by
  unfold outputRoadCells genCore
  simp only [List.mem_map, List.mem_filter, decide_eq_true_eq]
  constructor
  · rintro ⟨p, ⟨hp, hroad⟩, rfl⟩
    rcases hp with ⟨c, hc, rfl⟩
    exact ⟨hc, (finalType_road_iff R cfg S nb c).mp hroad⟩
  · rintro ⟨hg, hr⟩
    refine ⟨(x, finalType R cfg S nb x), ⟨⟨x, hg, rfl⟩, ?_⟩, rfl⟩
    exact (finalType_road_iff R cfg S nb x).mpr hr

/-! ## Pipeline lemmas: buildings and ratios -/

theorem ratioCount_eq_floor (q : ℚ) (n : Nat) :
    ratioCount q n = (⌊q * (n : ℚ)⌋).toNat := by
  unfold ratioCount
  have hq : q * (n : ℚ) = ((q.num * (n : Int) : Int) : ℚ) / ((q.den : ℕ) : ℚ) := by
    conv_lhs => rw [← Rat.num_div_den q]
    rw [div_mul_eq_mul_div]
    push_cast
    ring
  rw [hq, Rat.floor_intCast_div_natCast]

theorem buildings_subset_eligible (R : Nat) (cfg : GenerationConfig) (S : Nat)
    (nb : NeighborState) :
    ∀ c ∈ buildings R cfg S nb, c ∈ eligibleCells R cfg S nb :=
  fun c hc => selectLoop_subset _ _ _ _ _ c hc

theorem mem_eligibleCells (R : Nat) (cfg : GenerationConfig) (S : Nat)
    (nb : NeighborState) (c : Hex) :
    c ∈ eligibleCells R cfg S nb ↔
      c ∈ hexGrid R ∧ preType R cfg S nb c = TileTag.grass ∧
        cfg.minAdjacentRoads ≤ roadNeighborCount R cfg S nb c := by
  unfold eligibleCells
  rw [List.mem_filter]
  simp [Bool.and_eq_true, decide_eq_true_eq, and_assoc]

theorem buildings_length (R : Nat) (cfg : GenerationConfig) (S : Nat)
    (nb : NeighborState) :
    (buildings R cfg S nb).length =
      min (buildingTarget R cfg) (eligibleCells R cfg S nb).length :=
  selectLoop_length _ _ _ _ _

theorem borderCommits_getD (R : Nat) (cfg : GenerationConfig)
    (nb : NeighborState) (k : Fin 6) :
    (borderCommits R cfg nb).getD k.val [] = borderTargets R cfg nb k := by
  fin_cases k <;> rfl

/-! ## Claim theorems -/

/-- C1: for every valid radius R with 0 ≤ R ≤ 50, every generation
configuration, every random seed S, and every neighbor border state, two
generation calls with identical (R, config, S, neighbor state) produce
bit-identical output tile grids: generation is a pure function of these
four inputs and of nothing else. -/
theorem c1_generation_deterministic (R R' : Int) (cfg cfg' : GenerationConfig)
    (S S' : Nat) (nb nb' : NeighborState) (hR0 : 0 ≤ R) (hR1 : R ≤ 50)
    (h1 : R = R') (h2 : cfg = cfg') (h3 : S = S') (h4 : nb = nb') :
    generateChunk R cfg S nb = generateChunk R' cfg' S' nb' := by
  subst h1
  subst h2
  subst h3
  subst h4
  rfl

theorem c1_generation_deterministic_witness :
    generateChunk 2 sampleConfig 42 nbNone =
      generateChunk 2 sampleConfig 42 nbNone :=
  c1_generation_deterministic 2 2 sampleConfig sampleConfig 42 42 nbNone
    nbNone (by decide) (by decide) rfl rfl rfl rfl

/-- C5: the hex grid index operation fails with the typed error
InvalidRadius exactly when the requested ring radius R satisfies
R > maxRings = 50 or R < 0, and succeeds (returning the cell enumeration,
with no other failure) for every R in range. -/
theorem c5_hex_grid_index_invalid_radius (R : Int) :
    (hexGridIndex R = Except.error GenError.InvalidRadius ↔ 50 < R ∨ R < 0) ∧
      ((0 ≤ R ∧ R ≤ (CONSTRAINTS.maxRings : Int)) ↔
        ∃ cells, hexGridIndex R = Except.ok cells) := by
  have hm : ((CONSTRAINTS.maxRings : Nat) : Int) = 50 := rfl
  unfold hexGridIndex
  by_cases hcond : R < 0 ∨ ((CONSTRAINTS.maxRings : Nat) : Int) < R
  · rw [if_pos hcond]
    rw [hm] at hcond
    refine ⟨⟨fun _ => by omega, fun _ => rfl⟩, ?_, ?_⟩
    · intro ⟨h0, h1⟩
      rw [hm] at h1
      omega
    · rintro ⟨cells, hc⟩
      exact absurd hc (by simp)
  · rw [if_neg hcond]
    rw [hm] at hcond
    refine ⟨⟨fun h => absurd h (by simp), fun h => by omega⟩, ?_, ?_⟩
    · intro _
      exact ⟨_, rfl⟩
    · intro _
      rw [hm]
      omega

/-- C6: TileType is a closed variant over exactly the five tags grass,
building, road, forest, water, and the TILES lookup defines an entry for
exactly these five tags and no others. -/
theorem c6_tiles_closed_variant :
    (∀ t : TileTag, t ∈ getAllTileTypes) ∧ getAllTileTypes.Nodup ∧
      getAllTileTypes.length = 5 ∧
      (∀ s : String, (lookupTILES s).isSome ↔ s ∈ tilesKeys) ∧
      (∀ t : TileTag, (TILES t).type ∈ tilesKeys ∧
        lookupTILES (TILES t).type = some (TILES t)) := by
  refine ⟨?_, by decide, rfl, ?_, ?_⟩
  · intro t
    cases t <;> decide
  · intro s
    unfold lookupTILES tileTagOfString tilesKeys
    split_ifs with h1 h2 h3 h4 h5 <;> simp_all
  · intro t
    cases t <;> exact ⟨by decide, rfl⟩

/-- C7: the default per-category Voronoi seed counts, used when the
configuration does not override them, are forest = 4, water = 3 and
grass = 6. -/
theorem c7_default_voronoi_seed_counts :
    CONSTRAINTS.voronoiSeeds.forest = 4 ∧
      CONSTRAINTS.voronoiSeeds.water = 3 ∧
      CONSTRAINTS.voronoiSeeds.grass = 6 ∧
      defaultGenerationConfig.voronoiSeeds = CONSTRAINTS.voronoiSeeds :=
  ⟨rfl, rfl, rfl, rfl⟩

/-- C10: getTileWasmNumber maps the five known tile types injectively to
grass 0, building 1, road 2, forest 3, water 4, and returns -1 on every
string that is not a key of TILES; getTileColor returns white (1,1,1) for
a tile type not present in TILES. -/
theorem c10_wasm_number_and_color_fallbacks :
    (getTileWasmNumber "grass" = 0 ∧ getTileWasmNumber "building" = 1 ∧
      getTileWasmNumber "road" = 2 ∧ getTileWasmNumber "forest" = 3 ∧
      getTileWasmNumber "water" = 4) ∧
      (∀ t u : TileTag,
        (TILES t).wasmNumber = (TILES u).wasmNumber → t = u) ∧
      (∀ s : String, s ∉ tilesKeys → getTileWasmNumber s = -1) ∧
      (∀ s : String, s ∉ tilesKeys → getTileColor s = ⟨1, 1, 1⟩) := by
  refine ⟨⟨rfl, rfl, rfl, rfl, rfl⟩, ?_, ?_, ?_⟩
  · intro t u h
    cases t <;> cases u <;> first
      | rfl
      | exact absurd h (by decide)
  · intro s hs
    unfold getTileWasmNumber lookupTILES tileTagOfString
    split_ifs with h1 h2 h3 h4 h5
    · subst h1
      exact absurd (show ("grass" : String) ∈ tilesKeys by decide) hs
    · subst h2
      exact absurd (show ("building" : String) ∈ tilesKeys by decide) hs
    · subst h3
      exact absurd (show ("road" : String) ∈ tilesKeys by decide) hs
    · subst h4
      exact absurd (show ("forest" : String) ∈ tilesKeys by decide) hs
    · subst h5
      exact absurd (show ("water" : String) ∈ tilesKeys by decide) hs
    · rfl
  · intro s hs
    unfold getTileColor lookupTILES tileTagOfString
    split_ifs with h1 h2 h3 h4 h5
    · subst h1
      exact absurd (show ("grass" : String) ∈ tilesKeys by decide) hs
    · subst h2
      exact absurd (show ("building" : String) ∈ tilesKeys by decide) hs
    · subst h3
      exact absurd (show ("road" : String) ∈ tilesKeys by decide) hs
    · subst h4
      exact absurd (show ("forest" : String) ∈ tilesKeys by decide) hs
    · subst h5
      exact absurd (show ("water" : String) ∈ tilesKeys by decide) hs
    · rfl

theorem c10_wasm_number_and_color_fallbacks_witness :
    (("lava" : String) ∉ tilesKeys) ∧ getTileWasmNumber "lava" = -1 ∧
      getTileColor "lava" = ⟨1, 1, 1⟩ ∧ TileTag.road = TileTag.road :=
  ⟨by decide,
    c10_wasm_number_and_color_fallbacks.2.2.1 "lava" (by decide),
    c10_wasm_number_and_color_fallbacks.2.2.2 "lava" (by decide),
    c10_wasm_number_and_color_fallbacks.2.1 .road .road rfl⟩

/-- C2: in every generated chunk the road-tagged cells of the final output
(after border resolution) form a single connected component of the
hex-adjacency graph, provided the committed neighbor positions lie within
the grid. -/
theorem c2_roads_single_connected_component (R : Nat)
    (cfg : GenerationConfig) (S : Nat) (nb : NeighborState)
    (hnb : NbInGrid R nb) :
    ConnectedCells (outputRoadCells (genCore R cfg S nb)) := by
  refine connectedCells_congr (fun x => ?_) (roadsFinal_connected R cfg S nb)
  rw [mem_outputRoadCells]
  constructor
  · intro h
    exact ⟨(mem_hexGrid R x).mpr (roadsFinal_norm R cfg S nb hnb x h), h⟩
  · exact fun h => h.2

theorem c2_roads_single_connected_component_witness :
    ConnectedCells (outputRoadCells (genCore 2 sampleConfig 42 nbNone)) :=
  c2_roads_single_connected_component 2 sampleConfig 42 nbNone (by
    intro k ps h
    fin_cases k <;> exact Option.noConfusion h)

/-- C3: every cell tagged building was grass immediately before building
placement and has at least minAdjacentRoads road-tagged neighbors (with
default minAdjacentRoads = 1); when fewer cells are eligible than
requested, the placer simply returns fewer buildings, with no error. -/
theorem c3_building_eligibility (R : Nat) (cfg : GenerationConfig) (S : Nat)
    (nb : NeighborState) :
    (∀ c ∈ buildings R cfg S nb,
        preType R cfg S nb c = TileTag.grass ∧
          cfg.minAdjacentRoads ≤ roadNeighborCount R cfg S nb c) ∧
      (buildings R cfg S nb).length =
        min (buildingTarget R cfg) (eligibleCells R cfg S nb).length ∧
      CONSTRAINTS.minAdjacentRoads = 1 ∧
      defaultGenerationConfig.minAdjacentRoads = 1 := by
  refine ⟨?_, buildings_length R cfg S nb, rfl, rfl⟩
  intro c hc
  have h := (mem_eligibleCells R cfg S nb c).mp
    (buildings_subset_eligible R cfg S nb c hc)
  exact ⟨h.2.1, h.2.2⟩

set_option maxRecDepth 10000 in
theorem c3_building_eligibility_witness :
    (⟨0, 1⟩ : Hex) ∈ buildings 2 sampleConfig 42 nbNone ∧
      preType 2 sampleConfig 42 nbNone ⟨0, 1⟩ = TileTag.grass ∧
        1 ≤ roadNeighborCount 2 sampleConfig 42 nbNone ⟨0, 1⟩ :=
  ⟨by decide,
    (c3_building_eligibility 2 sampleConfig 42 nbNone).1 ⟨0, 1⟩ (by decide)⟩

/-- C4: with connectToNeighbors enabled, for every segment whose neighbor
has committed positions, this chunk's committed entry-point list equals
the neighbor's committed positions exactly (and every such position is a
road cell of this chunk); for an uncommitted neighbor segment, this
chunk's own generated positions become the committed state. -/
theorem c4_border_commit_resolution (R : Nat) (cfg : GenerationConfig)
    (S : Nat) (nb : NeighborState) (hc : cfg.connectToNeighbors = true) :
    (∀ k : Fin 6, ∀ ps, nbGet nb k = some ps →
        (genCore R cfg S nb).commits.getD k.val [] = ps ∧
          ∀ p ∈ ps, p ∈ roadsFinal R cfg S nb) ∧
      (∀ k : Fin 6, nbGet nb k = none →
        (genCore R cfg S nb).commits.getD k.val [] =
          genBorderTargets R cfg k) := by
  have hcommit : ∀ k : Fin 6,
      (genCore R cfg S nb).commits.getD k.val [] = borderTargets R cfg nb k :=
    fun k => borderCommits_getD R cfg nb k
  constructor
  · intro k ps h
    have ht : borderTargets R cfg nb k = ps := by
      unfold borderTargets
      rw [if_pos hc, h]
    refine ⟨by rw [hcommit k, ht], ?_⟩
    intro p hp
    apply mem_roadsFinal_of_target R cfg S nb k
    rw [ht]
    exact hp
  · intro k h
    rw [hcommit k]
    unfold borderTargets
    rw [if_pos hc, h]

theorem c4_border_commit_resolution_witness :
    (genCore 2 sampleConfig 7 nbSample).commits.getD 0 [] = [⟨2, 0⟩] ∧
      (genCore 2 sampleConfig 7 nbSample).commits.getD 1 [] =
        genBorderTargets 2 sampleConfig 1 := by
  have h := c4_border_commit_resolution 2 sampleConfig 7 nbSample rfl
  exact ⟨(h.1 0 [⟨2, 0⟩] rfl).1, h.2 1 rfl⟩

/-- C8: the building density ratio configuration maps sparse to 0.05,
medium to 0.10 and dense to 0.15 of total cells, medium being the default
level, and the building count never exceeds the minimum of the rounded-down
density share of total cells and the eligible-cell count. -/
theorem c8_building_density_ratios (R : Nat) (cfg : GenerationConfig)
    (S : Nat) (nb : NeighborState) :
    CONSTRAINTS.buildingDensity.sparse = 0.05 ∧
      CONSTRAINTS.buildingDensity.medium = 0.10 ∧
      CONSTRAINTS.buildingDensity.dense = 0.15 ∧
      CONSTRAINTS.defaultBuildingDensity = DensityLevel.medium ∧
      (buildings R cfg S nb).length ≤
        min (⌊densityRatioOf cfg * (((hexGrid R).length : Nat) : ℚ)⌋.toNat)
          (eligibleCells R cfg S nb).length := by
  refine ⟨rfl, ?_, rfl, rfl, ?_⟩
  · show (0.1 : ℚ) = 0.10
    norm_num
  have hb : buildingTarget R cfg =
      ⌊densityRatioOf cfg * (((hexGrid R).length : Nat) : ℚ)⌋.toNat :=
    ratioCount_eq_floor _ _
  rw [buildings_length, hb]

theorem genBorderTargets_facts (R : Nat) (cfg : GenerationConfig) (k : Fin 6)
    (hrpb : cfg.roadsPerBorder ≤ R) :
    cfg.roadsPerBorder ≤ (genBorderTargets R cfg k).length ∧
      (genBorderTargets R cfg k).Nodup ∧
      ∀ t ∈ genBorderTargets R cfg k, t ∈ borderSegment R k := by
  refine ⟨?_, (List.take_sublist _ _).nodup (borderSegment_nodup R k),
    fun t ht => List.take_subset _ _ ht⟩
  unfold genBorderTargets
  rw [List.length_take, borderSegment_length]
  omega

/-- C9: each chunk has exactly 6 border segments, the default required
road-entry count per segment is 1, and each of the 6 segments is touched by
at least roadsPerBorder road cells (for a radius able to host them and a
well-formed committed neighbor state). -/
theorem c9_border_road_coverage (R : Nat) (cfg : GenerationConfig) (S : Nat)
    (nb : NeighborState) (hrpb : cfg.roadsPerBorder ≤ R)
    (hnb : cfg.connectToNeighbors = true → NbSegmentWF R cfg nb) :
    (borderCommits R cfg nb).length = 6 ∧
      CONSTRAINTS.borderRoad.roadsPerBorder = 1 ∧
      ∀ k : Fin 6, cfg.roadsPerBorder ≤ roadTouchCount R cfg S nb k := by
  refine ⟨by simp [borderCommits], rfl, ?_⟩
  intro k
  have hcase : cfg.roadsPerBorder ≤ (borderTargets R cfg nb k).length ∧
      (borderTargets R cfg nb k).Nodup ∧
      ∀ t ∈ borderTargets R cfg nb k, t ∈ borderSegment R k := by
    unfold borderTargets
    by_cases hcn : cfg.connectToNeighbors
    · rw [if_pos hcn]
      cases hnbk : nbGet nb k with
      | some ps => exact hnb hcn k ps hnbk
      | none => exact genBorderTargets_facts R cfg k hrpb
    · rw [if_neg hcn]
      exact genBorderTargets_facts R cfg k hrpb
  obtain ⟨hlen, hnd, hsub⟩ := hcase
  have hroads : ∀ t ∈ borderTargets R cfg nb k, t ∈ roadsFinal R cfg S nb :=
    fun t ht => mem_roadsFinal_of_target R cfg S nb k t ht
  have hmem : ∀ t ∈ borderTargets R cfg nb k,
      t ∈ (borderSegment R k).filter
        (fun c => decide (c ∈ roadsFinal R cfg S nb)) :=
    fun t ht =>
      List.mem_filter.mpr ⟨hsub t ht, decide_eq_true (hroads t ht)⟩
  unfold roadTouchCount
  exact le_trans hlen ((List.subperm_of_subset hnd hmem).length_le)

theorem c9_border_road_coverage_witness :
    sampleConfig.roadsPerBorder ≤ 2 ∧
      1 ≤ roadTouchCount 2 sampleConfig 42 nbNone 0 := by
  refine ⟨by decide, ?_⟩
  have h := c9_border_road_coverage 2 sampleConfig 42 nbNone (by decide)
    (fun _ => by
      intro k ps hps
      fin_cases k <;> exact Option.noConfusion hps)
  exact h.2.2 0

/-- Sanity check from the spec's worked example: a radius-3 chunk has
1 + 3 * 3 * (3 + 1) = 37 cells. -/
theorem hexGrid_radius3_total_cells : (hexGrid 3).length = 37 := by decide
